import Mathlib

/-!
Shallow embedding of the social-media REST backend (Express + MySQL, one
TypeScript file).  The database is a record of row lists, one per table of the
CREATE TABLE statements, together with the AUTO_INCREMENT counter of each
table.  Every route handler becomes a pure function from its inputs and the
current database to a response paired with the next database.  MySQL foreign
key constraints are enforced at each INSERT: an insert whose referenced row is
absent throws, the handler catch-block answers 500, and writes already issued
inside the same handler are kept (the code opens no transaction).
-/

/-- A row of the users table. -/
structure UserRow where
  id : Nat
  username : String
  email : String
  password_hash : String
  is_admin : Bool
  created_at : Nat
deriving DecidableEq, Repr

/-- A row of the posts table. -/
structure PostRow where
  id : Nat
  user_id : Nat
  content : String
  created_at : Nat
deriving DecidableEq, Repr

/-- A row of the comments table. -/
structure CommentRow where
  id : Nat
  user_id : Nat
  post_id : Nat
  content : String
  created_at : Nat
deriving DecidableEq, Repr

/-- A row of the likes table. -/
structure LikeRow where
  id : Nat
  user_id : Nat
  post_id : Nat
  created_at : Nat
deriving DecidableEq, Repr

/-- A row of the follows table. -/
structure FollowRow where
  id : Nat
  follower_id : Nat
  following_id : Nat
  created_at : Nat
deriving DecidableEq, Repr

/-- A row of the notifications table; post_id is nullable. -/
structure NotificationRow where
  id : Nat
  user_id : Nat
  ntype : String
  source_user_id : Nat
  post_id : Option Nat
  is_read : Bool
  created_at : Nat
deriving DecidableEq, Repr

/-- The whole database: the six tables plus the AUTO_INCREMENT counter of
each table. -/
structure DB where
  users : List UserRow
  posts : List PostRow
  comments : List CommentRow
  likes : List LikeRow
  follows : List FollowRow
  notifications : List NotificationRow
  nextUserId : Nat
  nextPostId : Nat
  nextCommentId : Nat
  nextLikeId : Nat
  nextFollowId : Nat
  nextNotifId : Nat
deriving DecidableEq, Repr

/-- The freshly initialized database: empty tables, counters at 1. -/
def emptyDB : DB :=
  ⟨[], [], [], [], [], [], 1, 1, 1, 1, 1, 1⟩

/-- The payload the server signs into a JWT: userId, email, isAdmin. -/
structure TokenPayload where
  userId : Nat
  email : String
  isAdmin : Bool
deriving DecidableEq, Repr

/-- Outcome of jwt.verify on the Authorization header of a request:
no token given, a token that fails verification, or a verified payload. -/
inductive TokenCheck where
  | missing : TokenCheck
  | invalid : TokenCheck
  | valid : TokenPayload → TokenCheck
deriving DecidableEq, Repr

/-- The authenticateToken middleware: 401 when the header has no token,
403 when jwt.verify throws, otherwise the decoded payload becomes req.user. -/
def authenticateTok : TokenCheck → Except (Nat × String) TokenPayload
  | TokenCheck.missing => Except.error (401, "Access token required")
  | TokenCheck.invalid => Except.error (403, "Invalid token")
  | TokenCheck.valid u => Except.ok u

/-- FK helper: does a users row with this id exist. -/
def hasUserId (db : DB) (i : Nat) : Bool :=
  db.users.any (fun u => u.id == i)

/-- FK helper: does a posts row with this id exist. -/
def hasPostId (db : DB) (i : Nat) : Bool :=
  db.posts.any (fun p => p.id == i)

/-- INSERT INTO notifications (user_id, type, source_user_id, post_id):
appends a row with the next AUTO_INCREMENT id, is_read defaulted to FALSE. -/
def insertNotif (db : DB) (uid : Nat) (ty : String) (src : Nat)
    (pid : Option Nat) (t : Nat) : DB :=
  { db with
    notifications :=
      db.notifications ++ [⟨db.nextNotifId, uid, ty, src, pid, false, t⟩],
    nextNotifId := db.nextNotifId + 1 }

/-- Response of POST /api/posts/:postId/like. -/
structure LikeRes where
  status : Nat
  success : Bool
  liked : Option Bool
deriving DecidableEq, Repr

/-- The POST /api/posts/:postId/like handler.  Reads the likes rows of
(userId, postId); when one exists it deletes them and answers liked false;
otherwise it inserts a like (FK: user and post must exist, else the insert
throws and the catch answers 500), loads the post owner, and inserts a like
notification unless the owner is the liker. -/
def likeHandler (userId postId t : Nat) (db : DB) : LikeRes × DB :=
  let existing := db.likes.filter
    (fun l => l.user_id == userId && l.post_id == postId)
  if existing.length > 0 then
    let remaining := db.likes.filter
      (fun l => !(l.user_id == userId && l.post_id == postId))
    (⟨200, true, some false⟩, { db with likes := remaining })
  else
    if hasUserId db userId && hasPostId db postId then
      let db1 : DB :=
        { db with
          likes := db.likes ++ [⟨db.nextLikeId, userId, postId, t⟩],
          nextLikeId := db.nextLikeId + 1 }
      match (db1.posts.filter (fun p => p.id == postId)).head? with
      | some post =>
        if post.user_id ≠ userId then
          if hasUserId db1 post.user_id then
            (⟨200, true, some true⟩,
              insertNotif db1 post.user_id "like" userId (some postId) t)
          else
            (⟨500, false, none⟩, db1)
        else
          (⟨200, true, some true⟩, db1)
      | none => (⟨500, false, none⟩, db1)
    else
      (⟨500, false, none⟩, db)

/-- Response of POST /api/users/:userId/follow. -/
structure FollowRes where
  status : Nat
  success : Bool
  following : Option Bool
deriving DecidableEq, Repr

/-- The POST /api/users/:userId/follow handler.  400 when the target equals
the caller, 404 when the target user is absent; otherwise toggles the follows
row (FK on insert: the follower must exist, else 500) and inserts a follow
notification for the target on the follow branch. -/
def followHandler (followerId targetUserId t : Nat) (db : DB) :
    FollowRes × DB :=
  if targetUserId == followerId then
    (⟨400, false, none⟩, db)
  else if (db.users.filter (fun u => u.id == targetUserId)).length == 0 then
    (⟨404, false, none⟩, db)
  else
    let existing := db.follows.filter
      (fun f => f.follower_id == followerId && f.following_id == targetUserId)
    if existing.length > 0 then
      let remaining := db.follows.filter
        (fun f =>
          !(f.follower_id == followerId && f.following_id == targetUserId))
      (⟨200, true, some false⟩, { db with follows := remaining })
    else
      if hasUserId db followerId then
        let db1 : DB :=
          { db with
            follows :=
              db.follows ++ [⟨db.nextFollowId, followerId, targetUserId, t⟩],
            nextFollowId := db.nextFollowId + 1 }
        (⟨200, true, some true⟩,
          insertNotif db1 targetUserId "follow" followerId none t)
      else
        (⟨500, false, none⟩, db)

/-- The users record sent back by register and login: SELECT of every column
except password_hash (login destructures password_hash away from SELECT *). -/
structure PublicUser where
  id : Nat
  username : String
  email : String
  is_admin : Bool
  created_at : Nat
deriving DecidableEq, Repr

/-- Projection of a users row to its public part. -/
def toPublic (u : UserRow) : PublicUser :=
  ⟨u.id, u.username, u.email, u.is_admin, u.created_at⟩

/-- The payload jwt.sign receives for a users row. -/
def tokenFor (u : UserRow) : TokenPayload :=
  ⟨u.id, u.email, u.is_admin⟩

/-- Response of the register and login endpoints. -/
structure AuthRes where
  status : Nat
  success : Bool
  error : Option String
  token : Option TokenPayload
  user : Option PublicUser
deriving DecidableEq, Repr

/-- The admin rule of the register handler, exactly as computed there. -/
def registerIsAdmin (email : String) : Bool :=
  email.endsWith "_admin@gmail.com" || email == "admin@social.com"

/-- The POST /api/auth/register handler.  An absent or empty body field is
falsy, so the validation answers 400 on the empty string; a duplicate email
answers 400; the INSERT throws on a duplicate username (UNIQUE constraint),
so the catch answers 500; otherwise the user is stored with the admin rule
applied and a 201 carries a token and the created user.  bcrypt.hash is
modelled by passing the produced hash string as the argument hashed. -/
def registerHandler (username email password hashed : String) (t : Nat)
    (db : DB) : AuthRes × DB :=
  if username == "" || email == "" || password == "" then
    (⟨400, false, some "All fields are required", none, none⟩, db)
  else if (db.users.filter (fun u => u.email == email)).length > 0 then
    (⟨400, false, some "User already exists", none, none⟩, db)
  else if db.users.any (fun u => u.username == username) then
    (⟨500, false, some "Internal server error", none, none⟩, db)
  else
    let newUser : UserRow :=
      ⟨db.nextUserId, username, email, hashed, registerIsAdmin email, t⟩
    let db1 : DB :=
      { db with users := db.users ++ [newUser],
                nextUserId := db.nextUserId + 1 }
    match (db1.users.filter (fun u => u.id == newUser.id)).head? with
    | some created =>
        (⟨201, true, none, some (tokenFor created), some (toPublic created)⟩,
          db1)
    | none => (⟨500, false, some "Internal server error", none, none⟩, db1)

/-- The POST /api/auth/login handler.  Fetches the first users row with the
given email; a missing row or a failing bcrypt.compare answers 401 Invalid
credentials; otherwise 200 with a token and the row without password_hash.
bcrypt.compare is modelled by the function argument compare, applied to the
submitted password and the stored hash. -/
def loginHandler (email password : String)
    (compare : String → String → Bool) (db : DB) : AuthRes × DB :=
  match (db.users.filter (fun u => u.email == email)).head? with
  | none => (⟨401, false, some "Invalid credentials", none, none⟩, db)
  | some user =>
      if compare password user.password_hash then
        (⟨200, true, none, some (tokenFor user), some (toPublic user)⟩, db)
      else
        (⟨401, false, some "Invalid credentials", none, none⟩, db)

/-- A post joined with the username of its author, as returned by the posts
endpoints. -/
structure PostWithUser where
  post : PostRow
  username : String
deriving DecidableEq, Repr

/-- Response of POST /api/posts. -/
structure CreatePostRes where
  status : Nat
  success : Bool
  data : Option PostWithUser
deriving DecidableEq, Repr

/-- The POST /api/posts handler.  400 on empty content; the INSERT throws
when the token user no longer exists (FK), answering 500; otherwise inserts
the post and answers 201 with the post joined to its author username. -/
def createPostHandler (userId : Nat) (content : String) (t : Nat)
    (db : DB) : CreatePostRes × DB :=
  if content == "" then
    (⟨400, false, none⟩, db)
  else if hasUserId db userId then
    let newPost : PostRow := ⟨db.nextPostId, userId, content, t⟩
    let db1 : DB :=
      { db with posts := db.posts ++ [newPost],
                nextPostId := db.nextPostId + 1 }
    let joined := (db1.posts.filter (fun p => p.id == newPost.id)).flatMap
      (fun p => (db1.users.filter (fun u => u.id == p.user_id)).map
        (fun u => PostWithUser.mk p u.username))
    match joined.head? with
    | some row => (⟨201, true, some row⟩, db1)
    | none => (⟨500, false, none⟩, db1)
  else
    (⟨500, false, none⟩, db)

/-- Profile statistics block of GET /api/users/:userId. -/
structure ProfileStats where
  posts : Nat
  followers : Nat
  following : Nat
deriving DecidableEq, Repr

/-- Data block of GET /api/users/:userId. -/
structure ProfileData where
  id : Nat
  username : String
  email : String
  created_at : Nat
  stats : ProfileStats
  isFollowing : Bool
deriving DecidableEq, Repr

/-- Response of GET /api/users/:userId. -/
structure ProfileRes where
  status : Nat
  success : Bool
  data : Option ProfileData
deriving DecidableEq, Repr

/-- The GET /api/users/:userId handler body.  reqUser is req.user, which the
route leaves unset because no middleware runs on this route; the handler
still guards the follow lookup behind it. -/
def getUserHandler (reqUser : Option TokenPayload) (userId : Nat)
    (db : DB) : ProfileRes × DB :=
  match (db.users.filter (fun u => u.id == userId)).head? with
  | none => (⟨404, false, none⟩, db)
  | some user =>
      let postCount := (db.posts.filter (fun p => p.user_id == userId)).length
      let followerCount :=
        (db.follows.filter (fun f => f.following_id == userId)).length
      let followingCount :=
        (db.follows.filter (fun f => f.follower_id == userId)).length
      let isFollowing :=
        match reqUser with
        | some ru =>
            (db.follows.filter (fun f =>
              f.follower_id == ru.userId && f.following_id == userId)).length
              > 0
        | none => false
      (⟨200, true, some
        ⟨user.id, user.username, user.email, user.created_at,
          ⟨postCount, followerCount, followingCount⟩, isFollowing⟩⟩, db)

/-- The route GET /api/users/:userId as registered: no authenticateToken in
the chain, so req.user stays undefined whatever Authorization header the
request carries. -/
def getUserRoute (tok : TokenCheck) (userId : Nat) (db : DB) :
    ProfileRes × DB :=
  getUserHandler none userId db

/-- A feed row: the post columns joined with username and email of the
author. -/
structure FeedRow where
  post : PostRow
  username : String
  email : String
deriving DecidableEq, Repr

/-- The WHERE clause of the feed query for the given viewer, applied to a
post: the author is followed by the viewer, or is the viewer. -/
def feedCond (db : DB) (userId : Nat) (p : PostRow) : Bool :=
  db.follows.any (fun f =>
    f.follower_id == userId && f.following_id == p.user_id)
  || p.user_id == userId

/-- The feed SELECT: inner join posts with users on the author id, keep the
rows passing the WHERE clause, order by created_at descending. -/
def feedQuery (db : DB) (userId : Nat) : List FeedRow :=
  List.insertionSort
    (fun a b => b.post.created_at ≤ a.post.created_at)
    ((db.posts.flatMap (fun p =>
        (db.users.filter (fun u => u.id == p.user_id)).map
          (fun u => FeedRow.mk p u.username u.email))).filter
      (fun row => feedCond db userId row.post))

/-- Response of GET /api/feed. -/
structure FeedRes where
  status : Nat
  success : Bool
  data : List FeedRow
deriving DecidableEq, Repr

/-- The GET /api/feed handler: runs the feed query for the token user and
writes nothing. -/
def feedHandler (userId : Nat) (db : DB) : FeedRes × DB :=
  (⟨200, true, feedQuery db userId⟩, db)

/-- A comment joined with the username of its author. -/
structure CommentWithUser where
  comment : CommentRow
  username : String
deriving DecidableEq, Repr

/-- Response of POST /api/posts/:postId/comments. -/
structure CreateCommentRes where
  status : Nat
  success : Bool
  data : Option CommentWithUser
deriving DecidableEq, Repr

/-- The POST /api/posts/:postId/comments handler.  400 on empty content;
the INSERT throws when the user or the post is absent (FK), answering 500;
otherwise inserts the comment, loads the post owner and inserts a comment
notification unless the owner is the commenter, answering 201 with the
comment joined to its author username. -/
def createCommentHandler (userId postId : Nat) (content : String) (t : Nat)
    (db : DB) : CreateCommentRes × DB :=
  if content == "" then
    (⟨400, false, none⟩, db)
  else if hasUserId db userId && hasPostId db postId then
    let newComment : CommentRow := ⟨db.nextCommentId, userId, postId, content, t⟩
    let db1 : DB :=
      { db with comments := db.comments ++ [newComment],
                nextCommentId := db.nextCommentId + 1 }
    let joined := (db1.comments.filter (fun c => c.id == newComment.id)).flatMap
      (fun c => (db1.users.filter (fun u => u.id == c.user_id)).map
        (fun u => CommentWithUser.mk c u.username))
    match (db1.posts.filter (fun p => p.id == postId)).head? with
    | some post =>
        if post.user_id ≠ userId then
          if hasUserId db1 post.user_id then
            (⟨201, true, joined.head?⟩,
              insertNotif db1 post.user_id "comment" userId (some postId) t)
          else
            (⟨500, false, none⟩, db1)
        else
          (⟨201, true, joined.head?⟩, db1)
    | none => (⟨500, false, none⟩, db1)
  else
    (⟨500, false, none⟩, db)

/-- Response of GET /api/posts/:postId/comments. -/
structure ListCommentsRes where
  status : Nat
  success : Bool
  data : List CommentWithUser
deriving DecidableEq, Repr

/-- The GET /api/posts/:postId/comments handler: comments of the post joined
with usernames, ordered by created_at ascending. -/
def listCommentsHandler (postId : Nat) (db : DB) : ListCommentsRes × DB :=
  (⟨200, true,
    List.insertionSort
      (fun a b => a.comment.created_at ≤ b.comment.created_at)
      ((db.comments.filter (fun c => c.post_id == postId)).flatMap
        (fun c => (db.users.filter (fun u => u.id == c.user_id)).map
          (fun u => CommentWithUser.mk c u.username)))⟩, db)

/-- Response of PATCH /api/notifications/:notificationId/read. -/
structure MarkReadRes where
  status : Nat
  success : Bool
deriving DecidableEq, Repr

/-- The PATCH /api/notifications/:notificationId/read handler.  404 when no
notifications row has this id and this owner; otherwise UPDATE SET
is_read = TRUE WHERE id = notificationId. -/
def markReadHandler (userId notificationId : Nat) (db : DB) :
    MarkReadRes × DB :=
  let owned := db.notifications.filter
    (fun n => n.id == notificationId && n.user_id == userId)
  if owned.length == 0 then
    (⟨404, false⟩, db)
  else
    let updated := db.notifications.map
      (fun n => if n.id == notificationId then { n with is_read := true } else n)
    (⟨200, true⟩, { db with notifications := updated })

/-- A users row as listed by GET /api/admin/users. -/
structure AdminUserRow where
  id : Nat
  username : String
  email : String
  created_at : Nat
deriving DecidableEq, Repr

/-- Response of GET /api/admin/users. -/
structure AdminUsersRes where
  status : Nat
  success : Bool
  error : Option String
  data : Option (List AdminUserRow)
deriving DecidableEq, Repr

/-- The requireAdmin middleware: 401 without req.user, 403 without the
isAdmin claim, otherwise pass. -/
def requireAdmin (user : Option TokenPayload) : Option (Nat × String) :=
  match user with
  | none => some (401, "Authentication required")
  | some u => if !u.isAdmin then some (403, "Admin access required") else none

/-- The GET /api/admin/users route: authenticateToken, then requireAdmin,
then the handler listing every user ordered by created_at descending. -/
def adminUsersRoute (tok : TokenCheck) (db : DB) : AdminUsersRes × DB :=
  match authenticateTok tok with
  | Except.error (s, e) => (⟨s, false, some e, none⟩, db)
  | Except.ok u =>
      match requireAdmin (some u) with
      | some (s, e) => (⟨s, false, some e, none⟩, db)
      | none =>
          (⟨200, true, none, some
            (List.insertionSort
              (fun a b => b.created_at ≤ a.created_at)
              (db.users.map (fun x => AdminUserRow.mk
                x.id x.username x.email x.created_at)))⟩, db)

/-- One API call, carrying everything the environment chooses: body fields,
route params, the clock value used for CURRENT_TIMESTAMP, the hash string
bcrypt produces, the bcrypt.compare oracle, and the identity decoded from the
bearer token for authenticated routes. -/
inductive ApiAction where
  | register (username email password hashed : String) (t : Nat)
  | login (email password : String) (compare : String → String → Bool)
  | createPost (userId : Nat) (content : String) (t : Nat)
  | listPosts
  | like (userId postId t : Nat)
  | getUser (tok : TokenCheck) (userId : Nat)
  | follow (followerId targetUserId t : Nat)
  | feed (userId : Nat)
  | createComment (userId postId : Nat) (content : String) (t : Nat)
  | listComments (postId : Nat)
  | markRead (userId notificationId : Nat)
  | adminUsers (tok : TokenCheck)

/-- The database after one API call (responses dropped). -/
def step (a : ApiAction) (db : DB) : DB :=
  match a with
  | ApiAction.register u e p h t => (registerHandler u e p h t db).2
  | ApiAction.login e p c => (loginHandler e p c db).2
  | ApiAction.createPost u c t => (createPostHandler u c t db).2
  | ApiAction.listPosts => db
  | ApiAction.like u p t => (likeHandler u p t db).2
  | ApiAction.getUser tok u => (getUserRoute tok u db).2
  | ApiAction.follow f g t => (followHandler f g t db).2
  | ApiAction.feed u => (feedHandler u db).2
  | ApiAction.createComment u p c t => (createCommentHandler u p c t db).2
  | ApiAction.listComments p => (listCommentsHandler p db).2
  | ApiAction.markRead u n => (markReadHandler u n db).2
  | ApiAction.adminUsers tok => (adminUsersRoute tok db).2

/-- States reachable by running the API from a fresh database. -/
inductive Reachable : DB → Prop where
  | empty : Reachable emptyDB
  | step (a : ApiAction) {db : DB} : Reachable db → Reachable (step a db)

/-- At most one likes row per (user_id, post_id) pair. -/
def LikesAtMostOne (likes : List LikeRow) : Prop :=
  ∀ u p, (likes.filter (fun l => l.user_id == u && l.post_id == p)).length ≤ 1

/-- At most one follows row per (follower_id, following_id) pair. -/
def FollowsAtMostOne (follows : List FollowRow) : Prop :=
  ∀ a b,
    (follows.filter
      (fun f => f.follower_id == a && f.following_id == b)).length ≤ 1

/-- The (user_id, post_id) relation underlying the likes table. -/
def likeKey (l : LikeRow) : Nat × Nat := (l.user_id, l.post_id)

/-- A database with one user and no posts, used as a counterexample input. -/
def dbOneUser : DB :=
  ⟨[⟨1, "alice", "alice@x.com", "h1", false, 0⟩], [], [], [], [], [],
    2, 1, 1, 1, 1, 1⟩

/-- A database with two users and a post of the second, used as a witness
input. -/
def dbUPost : DB :=
  ⟨[⟨1, "alice", "alice@x.com", "h1", false, 0⟩,
    ⟨2, "bob", "bob@x.com", "h2", false, 0⟩],
   [⟨1, 2, "hello", 0⟩], [], [], [], [], 3, 2, 1, 1, 1, 1⟩

/-- A database with one user owning one post, used as a counterexample
input. -/
def dbSelfPost : DB :=
  ⟨[⟨1, "alice", "alice@x.com", "h1", false, 0⟩], [⟨1, 1, "hi", 0⟩],
    [], [], [], [], 2, 2, 1, 1, 1, 1⟩

/-- A database with two users where user 1 follows user 2, used as a
witness input. -/
def dbFollow : DB :=
  ⟨[⟨1, "alice", "alice@x.com", "h1", false, 0⟩,
    ⟨2, "bob", "bob@x.com", "h2", false, 0⟩],
   [], [], [], [⟨1, 1, 2, 0⟩], [], 3, 1, 1, 1, 2, 1⟩

/-- A database with one user and one unread notification, used as a witness
input. -/
def dbNotif : DB :=
  ⟨[⟨1, "alice", "alice@x.com", "h1", false, 0⟩], [], [], [], [],
   [⟨1, 1, "follow", 1, none, false, 0⟩], 2, 1, 1, 1, 1, 2⟩

/-- A database with three users, three posts and one follow, used as a
witness input for the feed. -/
def dbFeed : DB :=
  ⟨[⟨1, "alice", "alice@x.com", "h1", false, 0⟩,
    ⟨2, "bob", "bob@x.com", "h2", false, 0⟩,
    ⟨3, "carol", "carol@x.com", "h3", false, 0⟩],
   [⟨1, 1, "p1", 1⟩, ⟨2, 2, "p2", 5⟩, ⟨3, 3, "p3", 3⟩],
   [], [], [⟨1, 1, 2, 0⟩], [], 4, 4, 1, 1, 2, 1⟩

/-- Filtering with a stronger predicate keeps no more elements. -/
theorem length_filter_le_of_imp {α : Type} {p q : α → Bool}
    (h : ∀ a, p a = true → q a = true) (l : List α) :
    (l.filter p).length ≤ (l.filter q).length := by
  induction l with
  | nil => simp
  | cons a l ih =>
    cases hp : p a
    · rw [List.filter_cons_of_neg (by simp [hp])]
      cases hq : q a
      · rw [List.filter_cons_of_neg (by simp [hq])]
        exact ih
      · rw [List.filter_cons_of_pos hq]
        exact ih.trans (Nat.le_succ _)
    · rw [List.filter_cons_of_pos hp, List.filter_cons_of_pos (h a hp)]
      simpa using ih

/-- A list whose p-filter has at most, and at least, one element splits
around that element, and removing the p-elements drops exactly it. -/
theorem filter_single_split {α : Type} {p : α → Bool} {l : List α}
    (hle : (l.filter p).length ≤ 1) (hpos : 0 < (l.filter p).length) :
    ∃ pre x suf, l = pre ++ x :: suf ∧ p x = true ∧
      l.filter (fun a => !(p a)) = pre ++ suf := by
  induction l with
  | nil => simp at hpos
  | cons a l ih =>
    cases hp : p a
    · rw [List.filter_cons_of_neg (by simp [hp])] at hle hpos
      obtain ⟨pre, x, suf, h1, h2, h3⟩ := ih hle hpos
      refine ⟨a :: pre, x, suf, by simp [h1], h2, ?_⟩
      rw [List.filter_cons_of_pos (by simp [hp])]
      simp [h3]
    · rw [List.filter_cons_of_pos hp] at hle
      have hfl : l.filter p = [] := by
        have : (l.filter p).length = 0 := by simpa using hle
        exact List.length_eq_zero.mp this
      refine ⟨[], a, l, rfl, hp, ?_⟩
      rw [List.filter_cons_of_neg (by simp [hp])]
      simp only [List.nil_append]
      exact List.filter_eq_self.mpr (fun b hb => by
        have hb2 := List.filter_eq_nil_iff.mp hfl b hb
        simp only [Bool.not_eq_true'] at hb2 ⊢
        simpa using hb2)

/-- LikesAtMostOne survives any filtering. -/
theorem likesAtMostOne_filter {l : List LikeRow}
    (h : LikesAtMostOne l) (q : LikeRow → Bool) :
    LikesAtMostOne (l.filter q) := by
  intro u p
  rw [List.filter_filter]
  refine le_trans (length_filter_le_of_imp ?_ l) (h u p)
  intro a ha
  rw [Bool.and_eq_true] at ha
  exact ha.1

/-- FollowsAtMostOne survives any filtering. -/
theorem followsAtMostOne_filter {l : List FollowRow}
    (h : FollowsAtMostOne l) (q : FollowRow → Bool) :
    FollowsAtMostOne (l.filter q) := by
  intro a b
  rw [List.filter_filter]
  refine le_trans (length_filter_le_of_imp ?_ l) (h a b)
  intro x hx
  rw [Bool.and_eq_true] at hx
  exact hx.1

/-- Appending a like whose pair is not yet present keeps LikesAtMostOne. -/
theorem likesAtMostOne_append {l : List LikeRow} (row : LikeRow)
    (h : LikesAtMostOne l)
    (hnew : l.filter
      (fun x => x.user_id == row.user_id && x.post_id == row.post_id) = []) :
    LikesAtMostOne (l ++ [row]) := by
  intro u p
  rw [List.filter_append, List.length_append]
  cases hb : (row.user_id == u && row.post_id == p)
  · have : List.filter (fun x => x.user_id == u && x.post_id == p) [row] = [] := by
      simp [List.filter, hb]
    rw [this]
    simpa using h u p
  · rw [Bool.and_eq_true, beq_iff_eq, beq_iff_eq] at hb
    obtain ⟨h1, h2⟩ := hb
    have : List.filter (fun x => x.user_id == u && x.post_id == p) l = [] := by
      rw [← h1, ← h2]
      exact hnew
    rw [this]
    have : (List.filter (fun x => x.user_id == u && x.post_id == p) [row]).length ≤ 1 :=
      List.length_filter_le _ _
    simpa using this

/-- Appending a follow whose pair is not yet present keeps
FollowsAtMostOne. -/
theorem followsAtMostOne_append {l : List FollowRow} (row : FollowRow)
    (h : FollowsAtMostOne l)
    (hnew : l.filter
      (fun x => x.follower_id == row.follower_id &&
        x.following_id == row.following_id) = []) :
    FollowsAtMostOne (l ++ [row]) := by
  intro u p
  rw [List.filter_append, List.length_append]
  cases hb : (row.follower_id == u && row.following_id == p)
  · have : List.filter
        (fun x => x.follower_id == u && x.following_id == p) [row] = [] := by
      simp [List.filter, hb]
    rw [this]
    simpa using h u p
  · rw [Bool.and_eq_true, beq_iff_eq, beq_iff_eq] at hb
    obtain ⟨h1, h2⟩ := hb
    have : List.filter (fun x => x.follower_id == u && x.following_id == p) l = [] := by
      rw [← h1, ← h2]
      exact hnew
    rw [this]
    have : (List.filter
        (fun x => x.follower_id == u && x.following_id == p) [row]).length ≤ 1 :=
      List.length_filter_le _ _
    simpa using this

/-- register writes only the users table. -/
theorem registerHandler_frame (u e p h : String) (t : Nat) (db : DB) :
    ((registerHandler u e p h t db).2).likes = db.likes ∧
    ((registerHandler u e p h t db).2).follows = db.follows := by
  unfold registerHandler
  dsimp only
  repeat' split
  all_goals exact ⟨rfl, rfl⟩

/-- login writes nothing. -/
theorem loginHandler_frame (e p : String) (c : String → String → Bool)
    (db : DB) : (loginHandler e p c db).2 = db := by
  unfold loginHandler
  repeat' split
  all_goals rfl

/-- createPost writes only the posts table. -/
theorem createPostHandler_frame (u : Nat) (c : String) (t : Nat) (db : DB) :
    ((createPostHandler u c t db).2).likes = db.likes ∧
    ((createPostHandler u c t db).2).follows = db.follows := by
  unfold createPostHandler
  dsimp only
  repeat' split
  all_goals exact ⟨rfl, rfl⟩

/-- like never writes the follows table. -/
theorem likeHandler_follows_frame (u p t : Nat) (db : DB) :
    ((likeHandler u p t db).2).follows = db.follows := by
  unfold likeHandler insertNotif
  dsimp only
  repeat' split
  all_goals rfl

/-- getUser writes nothing. -/
theorem getUserRoute_frame (tok : TokenCheck) (u : Nat) (db : DB) :
    (getUserRoute tok u db).2 = db := by
  unfold getUserRoute getUserHandler
  dsimp only
  repeat' split
  all_goals rfl

/-- follow never writes the likes table. -/
theorem followHandler_likes_frame (f g t : Nat) (db : DB) :
    ((followHandler f g t db).2).likes = db.likes := by
  unfold followHandler insertNotif
  dsimp only
  repeat' split
  all_goals rfl

/-- the feed writes nothing. -/
theorem feedHandler_frame (u : Nat) (db : DB) :
    (feedHandler u db).2 = db := rfl

/-- createComment writes only the comments and notifications tables. -/
theorem createCommentHandler_frame (u p : Nat) (c : String) (t : Nat)
    (db : DB) :
    ((createCommentHandler u p c t db).2).likes = db.likes ∧
    ((createCommentHandler u p c t db).2).follows = db.follows := by
  unfold createCommentHandler insertNotif
  dsimp only
  repeat' split
  all_goals exact ⟨rfl, rfl⟩

/-- listComments writes nothing. -/
theorem listCommentsHandler_frame (p : Nat) (db : DB) :
    (listCommentsHandler p db).2 = db := rfl

/-- markRead writes only the notifications table. -/
theorem markReadHandler_frame (u n : Nat) (db : DB) :
    ((markReadHandler u n db).2).likes = db.likes ∧
    ((markReadHandler u n db).2).follows = db.follows := by
  unfold markReadHandler
  dsimp only
  repeat' split
  all_goals exact ⟨rfl, rfl⟩

/-- adminUsers writes nothing. -/
theorem adminUsersRoute_frame (tok : TokenCheck) (db : DB) :
    (adminUsersRoute tok db).2 = db := by
  unfold adminUsersRoute
  repeat' split
  all_goals rfl

/-- like preserves the pair uniqueness of the likes table. -/
theorem likeHandler_likesAtMostOne (u p t : Nat) (db : DB)
    (h : LikesAtMostOne db.likes) :
    LikesAtMostOne ((likeHandler u p t db).2).likes := by
  unfold likeHandler insertNotif
  dsimp only
  split
  · exact likesAtMostOne_filter h _
  · have hnil :
        db.likes.filter (fun l => l.user_id == u && l.post_id == p) = [] := by
      rename_i hlen
      exact List.length_eq_zero.mp (by omega)
    repeat' split
    all_goals
      first
      | exact h
      | exact likesAtMostOne_append _ h hnil

/-- follow preserves the pair uniqueness of the follows table. -/
theorem followHandler_followsAtMostOne (f g t : Nat) (db : DB)
    (h : FollowsAtMostOne db.follows) :
    FollowsAtMostOne ((followHandler f g t db).2).follows := by
  unfold followHandler insertNotif
  dsimp only
  split
  · exact h
  · split
    · exact h
    · split
      · exact followsAtMostOne_filter h _
      · have hnil :
            db.follows.filter
              (fun x => x.follower_id == f && x.following_id == g) = [] := by
          rename_i hlen
          exact List.length_eq_zero.mp (by omega)
        split
        · exact followsAtMostOne_append _ h hnil
        · exact h

/-- Every API call preserves pair uniqueness of likes and follows. -/
theorem step_preserves_pairUnique (a : ApiAction) (db : DB)
    (h : LikesAtMostOne db.likes ∧ FollowsAtMostOne db.follows) :
    LikesAtMostOne (step a db).likes ∧ FollowsAtMostOne (step a db).follows := by
  obtain ⟨hl, hf⟩ := h
  cases a with
  | register u e p hh t =>
      simp only [step]
      rw [(registerHandler_frame u e p hh t db).1,
        (registerHandler_frame u e p hh t db).2]
      exact ⟨hl, hf⟩
  | login e p c =>
      simp only [step]
      rw [loginHandler_frame]
      exact ⟨hl, hf⟩
  | createPost u c t =>
      simp only [step]
      rw [(createPostHandler_frame u c t db).1,
        (createPostHandler_frame u c t db).2]
      exact ⟨hl, hf⟩
  | listPosts => exact ⟨hl, hf⟩
  | like u p t =>
      simp only [step]
      refine ⟨likeHandler_likesAtMostOne u p t db hl, ?_⟩
      rw [likeHandler_follows_frame]
      exact hf
  | getUser tok u =>
      simp only [step]
      rw [getUserRoute_frame]
      exact ⟨hl, hf⟩
  | follow f g t =>
      simp only [step]
      refine ⟨?_, followHandler_followsAtMostOne f g t db hf⟩
      rw [followHandler_likes_frame]
      exact hl
  | feed u =>
      simp only [step]
      rw [feedHandler_frame]
      exact ⟨hl, hf⟩
  | createComment u p c t =>
      simp only [step]
      rw [(createCommentHandler_frame u p c t db).1,
        (createCommentHandler_frame u p c t db).2]
      exact ⟨hl, hf⟩
  | listComments p =>
      simp only [step]
      rw [listCommentsHandler_frame]
      exact ⟨hl, hf⟩
  | markRead u n =>
      simp only [step]
      rw [(markReadHandler_frame u n db).1, (markReadHandler_frame u n db).2]
      exact ⟨hl, hf⟩
  | adminUsers tok =>
      simp only [step]
      rw [adminUsersRoute_frame]
      exact ⟨hl, hf⟩

/-- C5: every handler preserves the pair-uniqueness invariant of the likes
and follows tables, and hence every state reachable from the empty database
has at most one likes row per (user_id, post_id) and at most one follows row
per (follower_id, following_id). -/
theorem C5_pair_uniqueness_invariant :
    (∀ (a : ApiAction) (db : DB),
      LikesAtMostOne db.likes ∧ FollowsAtMostOne db.follows →
      LikesAtMostOne (step a db).likes ∧ FollowsAtMostOne (step a db).follows)
    ∧ ∀ db : DB, Reachable db →
      LikesAtMostOne db.likes ∧ FollowsAtMostOne db.follows := by
  refine ⟨step_preserves_pairUnique, ?_⟩
  intro db h
  induction h with
  | empty =>
      constructor
      · intro u p
        simp [emptyDB]
      · intro a b
        simp [emptyDB]
  | step a hr ih => exact step_preserves_pairUnique a _ ih

/-- Witness for C5 at a concrete two-call run from the empty database. -/
theorem C5_pair_uniqueness_invariant_witness :
    LikesAtMostOne
      (step (ApiAction.like 1 1 3)
        (step (ApiAction.register "alice" "a@x.com" "pw" "hash" 0)
          emptyDB)).likes ∧
    FollowsAtMostOne
      (step (ApiAction.like 1 1 3)
        (step (ApiAction.register "alice" "a@x.com" "pw" "hash" 0)
          emptyDB)).follows :=
  C5_pair_uniqueness_invariant.2 _
    (Reachable.step _ (Reachable.step _ Reachable.empty))

/-- When some element satisfies p, the head of the p-filter is the first
such element. -/
theorem head_filter_of_any {α : Type} {p : α → Bool} {l : List α}
    (h : l.any p = true) :
    ∃ x, (l.filter p).head? = some x ∧ x ∈ l ∧ p x = true := by
  have hne : l.filter p ≠ [] := by
    rw [Ne, List.filter_eq_nil_iff]
    intro hall
    obtain ⟨q, hm, hq⟩ := List.any_eq_true.mp h
    exact absurd hq (by simpa using hall q hm)
  cases hfe : l.filter p with
  | nil => exact absurd hfe hne
  | cons x xs =>
      have hx : x ∈ l.filter p := by
        rw [hfe]
        exact List.mem_cons_self x xs
      rw [List.mem_filter] at hx
      exact ⟨x, by simp [hfe], hx.1, hx.2⟩

theorem likeHandler_insert_spec (u p t : Nat) (db : DB)
    (hu : hasUserId db u = true) (hp : hasPostId db p = true)
    (hfk : ∀ q ∈ db.posts, hasUserId db q.user_id = true)
    (hempty : db.likes.filter (fun l => l.user_id == u && l.post_id == p) = []) :
    ∃ post : PostRow, (db.posts.filter (fun q => q.id == p)).head? = some post
      ∧ post ∈ db.posts ∧ post.id = p
      ∧ (likeHandler u p t db).1 = ⟨200, true, some true⟩
      ∧ (likeHandler u p t db).2.likes = db.likes ++ [⟨db.nextLikeId, u, p, t⟩]
      ∧ (likeHandler u p t db).2.posts = db.posts
      ∧ (likeHandler u p t db).2.users = db.users
      ∧ (likeHandler u p t db).2.follows = db.follows
      ∧ (post.user_id ≠ u →
          (likeHandler u p t db).2.notifications = db.notifications ++
            [⟨db.nextNotifId, post.user_id, "like", u, some p, false, t⟩])
      ∧ (post.user_id = u →
          (likeHandler u p t db).2.notifications = db.notifications) := by
  have hp2 : (db.posts.any fun q => q.id == p) = true := hp
  obtain ⟨post, hhead, hmem, hpid⟩ := head_filter_of_any hp2
  refine ⟨post, hhead, hmem, by simpa using hpid, ?_⟩
  unfold likeHandler
  dsimp only
  rw [hempty]
  rw [if_neg (by simp)]
  rw [hu, hp]
  rw [if_pos (show (true && true) = true from rfl)]
  have hfku : hasUserId db post.user_id = true := hfk post hmem
  split
  case h_2 heq =>
    rw [hhead] at heq
    cases heq
  case h_1 post2 heq =>
    rw [hhead] at heq
    injection heq with heq2
    subst heq2
    split
    case isTrue hne =>
      split
      case isTrue hin =>
        refine ⟨rfl, rfl, rfl, rfl, rfl, fun _ => rfl, fun hq => absurd hq hne⟩
      case isFalse hin =>
        exact absurd (by simpa [hasUserId] using hfku) hin
    case isFalse hne =>
      have hq : post.user_id = u := by simpa using hne
      refine ⟨rfl, rfl, rfl, rfl, rfl, fun hne2 => absurd hq hne2, fun _ => rfl⟩

theorem likeHandler_unlike_spec (u p t : Nat) (db : DB)
    (hinv : (db.likes.filter
      (fun l => l.user_id == u && l.post_id == p)).length ≤ 1)
    (hne : db.likes.filter (fun l => l.user_id == u && l.post_id == p) ≠ []) :
    (likeHandler u p t db).1 = ⟨200, true, some false⟩ ∧
    (∃ pre row suf, db.likes = pre ++ row :: suf ∧
      row.user_id = u ∧ row.post_id = p ∧
      (likeHandler u p t db).2.likes = pre ++ suf) ∧
    (likeHandler u p t db).2.likes =
      db.likes.filter (fun l => !(l.user_id == u && l.post_id == p)) ∧
    (likeHandler u p t db).2.posts = db.posts ∧
    (likeHandler u p t db).2.users = db.users ∧
    (likeHandler u p t db).2.follows = db.follows ∧
    (likeHandler u p t db).2.notifications = db.notifications := by
  have hpos : 0 < (db.likes.filter
      (fun l => l.user_id == u && l.post_id == p)).length :=
    List.length_pos.mpr hne
  obtain ⟨pre, row, suf, hsplit, hrow, hfilt⟩ := filter_single_split hinv hpos
  rw [Bool.and_eq_true, beq_iff_eq, beq_iff_eq] at hrow
  unfold likeHandler
  dsimp only
  rw [if_pos hpos]
  exact ⟨rfl, ⟨pre, row, suf, hsplit, hrow.1, hrow.2, hfilt⟩, rfl, rfl, rfl, rfl, rfl⟩

/-- C2 is false as stated: for post id 7, which no posts row carries, no
likes row (1, 7) exists, yet the like INSERT violates the posts foreign key,
so the handler answers 500 and inserts nothing instead of answering
liked true. -/
theorem C2_counterexample :
    dbOneUser.likes.filter (fun l => l.user_id == 1 && l.post_id == 7) = []
    ∧ (likeHandler 1 7 0 dbOneUser).2 = dbOneUser
    ∧ ¬(likeHandler 1 7 0 dbOneUser).1 = ⟨200, true, some true⟩ := by
  decide

/-- C2 (amended): for a registered user u and an existing post p whose rows
satisfy the schema constraints (posts FK into users, likes pair uniqueness),
the like endpoint inserts exactly one likes row (u, p) and answers
liked true when none exists, and deletes the one existing row and answers
liked false otherwise. -/
theorem C2_like_toggle (u p t : Nat) (db : DB)
    (hu : hasUserId db u = true) (hp : hasPostId db p = true)
    (hfk : ∀ q ∈ db.posts, hasUserId db q.user_id = true)
    (hinv : (db.likes.filter
      (fun l => l.user_id == u && l.post_id == p)).length ≤ 1) :
    (db.likes.filter (fun l => l.user_id == u && l.post_id == p) = [] →
      (∃ row : LikeRow, row.user_id = u ∧ row.post_id = p ∧
        (likeHandler u p t db).2.likes = db.likes ++ [row])
      ∧ (likeHandler u p t db).1 = ⟨200, true, some true⟩)
    ∧ (db.likes.filter (fun l => l.user_id == u && l.post_id == p) ≠ [] →
      (∃ pre row suf, db.likes = pre ++ row :: suf ∧
        row.user_id = u ∧ row.post_id = p ∧
        (likeHandler u p t db).2.likes = pre ++ suf)
      ∧ (likeHandler u p t db).1 = ⟨200, true, some false⟩) := by
  constructor
  · intro hempty
    obtain ⟨post, h1, h2, h3, hres, hlikes, h6, h7, h8, h9, h10⟩ :=
      likeHandler_insert_spec u p t db hu hp hfk hempty
    exact ⟨⟨⟨db.nextLikeId, u, p, t⟩, rfl, rfl, hlikes⟩, hres⟩
  · intro hne
    obtain ⟨hres, hex, h2, h3, h4, h5, h6⟩ :=
      likeHandler_unlike_spec u p t db hinv hne
    exact ⟨hex, hres⟩

/-- Witness for C2 at user 1 liking the existing post 1 of user 2. -/
theorem C2_like_toggle_witness :
    hasUserId dbUPost 1 = true ∧ hasPostId dbUPost 1 = true ∧
    ((dbUPost.likes.filter (fun l => l.user_id == 1 && l.post_id == 1) = [] →
      (∃ row : LikeRow, row.user_id = 1 ∧ row.post_id = 1 ∧
        (likeHandler 1 1 5 dbUPost).2.likes = dbUPost.likes ++ [row])
      ∧ (likeHandler 1 1 5 dbUPost).1 = ⟨200, true, some true⟩)
    ∧ (dbUPost.likes.filter (fun l => l.user_id == 1 && l.post_id == 1) ≠ [] →
      (∃ pre row suf, dbUPost.likes = pre ++ row :: suf ∧
        row.user_id = 1 ∧ row.post_id = 1 ∧
        (likeHandler 1 1 5 dbUPost).2.likes = pre ++ suf)
      ∧ (likeHandler 1 1 5 dbUPost).1 = ⟨200, true, some false⟩)) :=
  ⟨by decide, by decide,
    C2_like_toggle 1 1 5 dbUPost (by decide) (by decide) (by decide)
      (by decide)⟩

/-- C7: for a registered user u and an existing post p (schema constraints
assumed), two successive like calls by u on p leave the likes relation, the
multiset of (user_id, post_id) pairs, exactly as before the first call. -/
theorem C7_like_twice_identity (u p t1 t2 : Nat) (db : DB)
    (hu : hasUserId db u = true) (hp : hasPostId db p = true)
    (hfk : ∀ q ∈ db.posts, hasUserId db q.user_id = true)
    (hinv : (db.likes.filter
      (fun l => l.user_id == u && l.post_id == p)).length ≤ 1) :
    ((likeHandler u p t2 (likeHandler u p t1 db).2).2.likes.map likeKey).Perm
      (db.likes.map likeKey) := by
  by_cases hcase :
      db.likes.filter (fun l => l.user_id == u && l.post_id == p) = []
  · -- no like yet: the first call appends one row, the second deletes it
    obtain ⟨post, h1, h2, h3, hres, hlikes, hposts, husers, hfols, h9, h10⟩ :=
      likeHandler_insert_spec u p t1 db hu hp hfk hcase
    set db1 := (likeHandler u p t1 db).2 with hdb1
    have hinv1 : (db1.likes.filter
        (fun l => l.user_id == u && l.post_id == p)).length ≤ 1 := by
      rw [hlikes, List.filter_append, hcase]
      simp
    have hne1 : db1.likes.filter
        (fun l => l.user_id == u && l.post_id == p) ≠ [] := by
      rw [hlikes, List.filter_append, hcase]
      simp
    obtain ⟨hres2, hex2, hfilt2, hposts2, husers2, hfols2, hnots2⟩ :=
      likeHandler_unlike_spec u p t2 db1 hinv1 hne1
    rw [hfilt2, hlikes, List.filter_append]
    have hall : db.likes.filter
        (fun l => !(l.user_id == u && l.post_id == p)) = db.likes := by
      refine List.filter_eq_self.mpr (fun b hb => ?_)
      have hnb := List.filter_eq_nil_iff.mp hcase b hb
      cases hx : (b.user_id == u && b.post_id == p) with
      | false => rfl
      | true => exact absurd hx hnb
    have hone : List.filter (fun l => !(l.user_id == u && l.post_id == p))
        [(⟨db.nextLikeId, u, p, t1⟩ : LikeRow)] = [] := by
      simp
    rw [hall, hone, List.append_nil]
  · -- a like exists: the first call deletes it, the second reinserts the pair
    obtain ⟨hres, ⟨pre, row, suf, hsplit, hru, hrp, hlikes⟩, hfilt, hposts,
        husers, hfols, hnots⟩ :=
      likeHandler_unlike_spec u p t1 db hinv hcase
    set db1 := (likeHandler u p t1 db).2 with hdb1
    have hu1 : hasUserId db1 u = true := by
      unfold hasUserId at hu ⊢
      rw [husers]
      exact hu
    have hp1 : hasPostId db1 p = true := by
      unfold hasPostId at hp ⊢
      rw [hposts]
      exact hp
    have hfk1 : ∀ q ∈ db1.posts, hasUserId db1 q.user_id = true := by
      intro q hq
      rw [hposts] at hq
      unfold hasUserId
      rw [husers]
      exact hfk q hq
    have hempty1 : db1.likes.filter
        (fun l => l.user_id == u && l.post_id == p) = [] := by
      rw [hfilt, List.filter_filter]
      refine List.filter_eq_nil_iff.mpr (fun a ha => ?_)
      simp
    obtain ⟨post, h1, h2, h3, hres2, hlikes2, hposts2, husers2, hfols2,
        h9, h10⟩ :=
      likeHandler_insert_spec u p t2 db1 hu1 hp1 hfk1 hempty1
    rw [hlikes2, hlikes, hsplit]
    rw [List.map_append, List.map_append, List.map_append]
    have hkey : likeKey row = (u, p) := by
      unfold likeKey
      rw [hru, hrp]
    have hkey2 : likeKey (⟨db1.nextLikeId, u, p, t2⟩ : LikeRow) = (u, p) := rfl
    rw [List.append_assoc]
    refine List.Perm.append_left (pre.map likeKey) ?_
    simp only [List.map_cons, List.map_nil, hkey, hkey2]
    exact List.perm_append_singleton (u, p) (suf.map likeKey)

/-- Witness for C7: user 1 likes post 1 twice from dbUPost. -/
theorem C7_like_twice_identity_witness :
    ((likeHandler 1 1 6 (likeHandler 1 1 5 dbUPost).2).2.likes.map
      likeKey).Perm (dbUPost.likes.map likeKey) :=
  C7_like_twice_identity 1 1 5 6 dbUPost (by decide) (by decide) (by decide)
    (by decide)

/-- The follow branch of the follow handler: target exists and differs from
the caller, no follows row yet, caller registered.  One follows row and one
follow notification for the target are appended. -/
theorem followHandler_insert_spec (f g t : Nat) (db : DB)
    (hne : ¬g = f) (hu : hasUserId db f = true)
    (htgt : hasUserId db g = true)
    (hempty : db.follows.filter
      (fun x => x.follower_id == f && x.following_id == g) = []) :
    (followHandler f g t db).1 = ⟨200, true, some true⟩ ∧
    (followHandler f g t db).2.follows =
      db.follows ++ [⟨db.nextFollowId, f, g, t⟩] ∧
    (followHandler f g t db).2.users = db.users ∧
    (followHandler f g t db).2.posts = db.posts ∧
    (followHandler f g t db).2.likes = db.likes ∧
    (followHandler f g t db).2.notifications =
      db.notifications ++ [⟨db.nextNotifId, g, "follow", f, none, false, t⟩] := by
  obtain ⟨w, hw, hwid⟩ := List.any_eq_true.mp htgt
  have hfilne : db.users.filter (fun x => x.id == g) ≠ [] := by
    intro hcontra
    exact absurd hwid (by simpa using List.filter_eq_nil_iff.mp hcontra w hw)
  unfold followHandler
  dsimp only
  rw [if_neg (by simpa using hne)]
  rw [if_neg (fun hc => hfilne (List.length_eq_zero.mp (by
    simpa using hc)))]
  rw [hempty]
  rw [if_neg (by simp)]
  rw [if_pos hu]
  exact ⟨rfl, rfl, rfl, rfl, rfl, rfl⟩

/-- The unfollow branch of the follow handler: target exists and differs
from the caller, a follows row is present and unique.  Exactly that row is
removed; nothing else changes. -/
theorem followHandler_unfollow_spec (f g t : Nat) (db : DB)
    (hne : ¬g = f) (htgt : hasUserId db g = true)
    (hinv : (db.follows.filter
      (fun x => x.follower_id == f && x.following_id == g)).length ≤ 1)
    (hpres : db.follows.filter
      (fun x => x.follower_id == f && x.following_id == g) ≠ []) :
    (followHandler f g t db).1 = ⟨200, true, some false⟩ ∧
    (∃ pre row suf, db.follows = pre ++ row :: suf ∧
      row.follower_id = f ∧ row.following_id = g ∧
      (followHandler f g t db).2.follows = pre ++ suf) ∧
    (followHandler f g t db).2.follows =
      db.follows.filter (fun x => !(x.follower_id == f && x.following_id == g)) ∧
    (followHandler f g t db).2.users = db.users ∧
    (followHandler f g t db).2.posts = db.posts ∧
    (followHandler f g t db).2.likes = db.likes ∧
    (followHandler f g t db).2.notifications = db.notifications := by
  obtain ⟨w, hw, hwid⟩ := List.any_eq_true.mp htgt
  have hfilne : db.users.filter (fun x => x.id == g) ≠ [] := by
    intro hcontra
    exact absurd hwid (by simpa using List.filter_eq_nil_iff.mp hcontra w hw)
  have hpos : 0 < (db.follows.filter
      (fun x => x.follower_id == f && x.following_id == g)).length :=
    List.length_pos.mpr hpres
  obtain ⟨pre, row, suf, hsplit, hrow, hfilt⟩ := filter_single_split hinv hpos
  rw [Bool.and_eq_true, beq_iff_eq, beq_iff_eq] at hrow
  unfold followHandler
  dsimp only
  rw [if_neg (by simpa using hne)]
  rw [if_neg (fun hc => hfilne (List.length_eq_zero.mp (by
    simpa using hc)))]
  rw [if_pos hpos]
  exact ⟨rfl, ⟨pre, row, suf, hsplit, hrow.1, hrow.2, hfilt⟩, rfl, rfl, rfl,
    rfl, rfl⟩

/-- C4: follow answers 400 and changes nothing when the target is the
caller, 404 and changes nothing when the target does not exist, and
otherwise toggles the unique follows row (u, target), answering
following true on insert and following false on delete.  The caller is a
registered user and the follows table satisfies its uniqueness constraint. -/
theorem C4_follow_endpoint (u g t : Nat) (db : DB)
    (hu : hasUserId db u = true)
    (hinv : (db.follows.filter
      (fun x => x.follower_id == u && x.following_id == g)).length ≤ 1) :
    (g = u → (followHandler u g t db).1 = ⟨400, false, none⟩ ∧
      (followHandler u g t db).2 = db)
    ∧ (¬g = u → hasUserId db g = false →
      (followHandler u g t db).1 = ⟨404, false, none⟩ ∧
      (followHandler u g t db).2 = db)
    ∧ (¬g = u → hasUserId db g = true →
      (db.follows.filter
          (fun x => x.follower_id == u && x.following_id == g) = [] →
        (∃ row : FollowRow, row.follower_id = u ∧ row.following_id = g ∧
          (followHandler u g t db).2.follows = db.follows ++ [row])
        ∧ (followHandler u g t db).1 = ⟨200, true, some true⟩)
      ∧ (db.follows.filter
          (fun x => x.follower_id == u && x.following_id == g) ≠ [] →
        (∃ pre row suf, db.follows = pre ++ row :: suf ∧
          row.follower_id = u ∧ row.following_id = g ∧
          (followHandler u g t db).2.follows = pre ++ suf)
        ∧ (followHandler u g t db).1 = ⟨200, true, some false⟩)) := by
  refine ⟨?_, ?_, ?_⟩
  · intro hg
    subst hg
    unfold followHandler
    rw [if_pos (by simp)]
    exact ⟨rfl, rfl⟩
  · intro hg hno
    have hnil : db.users.filter (fun x => x.id == g) = [] := by
      refine List.filter_eq_nil_iff.mpr (fun w hw => ?_)
      intro hcontra
      have : db.users.any (fun x => x.id == g) = true :=
        List.any_eq_true.mpr ⟨w, hw, hcontra⟩
      rw [hasUserId] at hno
      rw [hno] at this
      cases this
    unfold followHandler
    rw [if_neg (by simpa using hg)]
    rw [if_pos (by rw [hnil]; rfl)]
    exact ⟨rfl, rfl⟩
  · intro hg hyes
    constructor
    · intro hempty
      obtain ⟨hres, hfols, h3, h4, h5, h6⟩ :=
        followHandler_insert_spec u g t db hg hu hyes hempty
      exact ⟨⟨⟨db.nextFollowId, u, g, t⟩, rfl, rfl, hfols⟩, hres⟩
    · intro hne2
      obtain ⟨hres, hex, h3, h4, h5, h6, h7⟩ :=
        followHandler_unfollow_spec u g t db hg hyes hinv hne2
      exact ⟨hex, hres⟩

/-- Witness for C4: user 1 following user 2 in dbUPost. -/
theorem C4_follow_endpoint_witness :
    hasUserId dbUPost 1 = true ∧
    ((2 = 1 → (followHandler 1 2 7 dbUPost).1 = ⟨400, false, none⟩ ∧
      (followHandler 1 2 7 dbUPost).2 = dbUPost)
    ∧ (¬2 = 1 → hasUserId dbUPost 2 = false →
      (followHandler 1 2 7 dbUPost).1 = ⟨404, false, none⟩ ∧
      (followHandler 1 2 7 dbUPost).2 = dbUPost)
    ∧ (¬2 = 1 → hasUserId dbUPost 2 = true →
      (dbUPost.follows.filter
          (fun x => x.follower_id == 1 && x.following_id == 2) = [] →
        (∃ row : FollowRow, row.follower_id = 1 ∧ row.following_id = 2 ∧
          (followHandler 1 2 7 dbUPost).2.follows = dbUPost.follows ++ [row])
        ∧ (followHandler 1 2 7 dbUPost).1 = ⟨200, true, some true⟩)
      ∧ (dbUPost.follows.filter
          (fun x => x.follower_id == 1 && x.following_id == 2) ≠ [] →
        (∃ pre row suf, dbUPost.follows = pre ++ row :: suf ∧
          row.follower_id = 1 ∧ row.following_id = 2 ∧
          (followHandler 1 2 7 dbUPost).2.follows = pre ++ suf)
        ∧ (followHandler 1 2 7 dbUPost).1 = ⟨200, true, some false⟩))) :=
  ⟨by decide, C4_follow_endpoint 1 2 7 dbUPost (by decide) (by decide)⟩

/-- The success path of the comment handler: nonempty content, registered
user, existing post with registered author.  The comment is appended and a
comment notification goes to the post owner unless the owner comments. -/
theorem createCommentHandler_spec (u p : Nat) (c : String) (t : Nat)
    (db : DB) (hc : ¬c = "") (hu : hasUserId db u = true)
    (hp : hasPostId db p = true)
    (hfk : ∀ q ∈ db.posts, hasUserId db q.user_id = true) :
    ∃ post : PostRow, (db.posts.filter (fun q => q.id == p)).head? = some post
      ∧ post ∈ db.posts ∧ post.id = p
      ∧ (createCommentHandler u p c t db).1.status = 201
      ∧ (createCommentHandler u p c t db).2.comments =
          db.comments ++ [⟨db.nextCommentId, u, p, c, t⟩]
      ∧ (createCommentHandler u p c t db).2.posts = db.posts
      ∧ (createCommentHandler u p c t db).2.users = db.users
      ∧ (post.user_id ≠ u →
          (createCommentHandler u p c t db).2.notifications =
            db.notifications ++
              [⟨db.nextNotifId, post.user_id, "comment", u, some p, false, t⟩])
      ∧ (post.user_id = u →
          (createCommentHandler u p c t db).2.notifications =
            db.notifications) := by
  have hp2 : (db.posts.any fun q => q.id == p) = true := hp
  obtain ⟨post, hhead, hmem, hpid⟩ := head_filter_of_any hp2
  refine ⟨post, hhead, hmem, by simpa using hpid, ?_⟩
  have hfku : hasUserId db post.user_id = true := hfk post hmem
  unfold createCommentHandler
  dsimp only
  rw [if_neg (by simpa using hc)]
  rw [hu, hp]
  rw [if_pos (show (true && true) = true from rfl)]
  split
  case h_2 heq =>
    rw [hhead] at heq
    cases heq
  case h_1 post2 heq =>
    rw [hhead] at heq
    injection heq with heq2
    subst heq2
    split
    case isTrue hne =>
      split
      case isTrue hin =>
        refine ⟨rfl, rfl, rfl, rfl, fun _ => rfl, fun hq => absurd hq hne⟩
      case isFalse hin =>
        exact absurd (by simpa [hasUserId] using hfku) hin
    case isFalse hne =>
      have hq : post.user_id = u := by simpa using hne
      refine ⟨rfl, rfl, rfl, rfl, fun hne2 => absurd hq hne2, fun _ => rfl⟩

/-- C3 is false as stated: user 1 likes their own post 1; the like row is
stored and the handler answers liked true, yet no notifications row is
written, because the handler skips the insert when the post owner is the
liker. -/
theorem C3_counterexample :
    (likeHandler 1 1 5 dbSelfPost).1 = ⟨200, true, some true⟩ ∧
    (likeHandler 1 1 5 dbSelfPost).2.likes ≠ dbSelfPost.likes ∧
    (likeHandler 1 1 5 dbSelfPost).2.notifications = [] := by
  decide

/-- C3 (amended): a like of an existing post inserts exactly one
notifications row of type like for the post owner with source_user_id the
liker and post_id the post, unless the liker owns the post, in which case no
notification is written; likewise a comment inserts a type comment row
unless the commenter owns the post; a new follow always inserts a type
follow row for the followed user with source_user_id the follower and NULL
post_id. -/
theorem C3_notification_fanout (u p g : Nat) (c : String) (t : Nat)
    (db : DB) (hu : hasUserId db u = true)
    (hfk : ∀ q ∈ db.posts, hasUserId db q.user_id = true) :
    (hasPostId db p = true →
      db.likes.filter (fun l => l.user_id == u && l.post_id == p) = [] →
      ∃ post : PostRow,
        (db.posts.filter (fun q => q.id == p)).head? = some post ∧
        post ∈ db.posts ∧ post.id = p ∧
        (post.user_id ≠ u →
          (likeHandler u p t db).2.notifications = db.notifications ++
            [⟨db.nextNotifId, post.user_id, "like", u, some p, false, t⟩]) ∧
        (post.user_id = u →
          (likeHandler u p t db).2.notifications = db.notifications))
    ∧ (¬c = "" → hasPostId db p = true →
      ∃ post : PostRow,
        (db.posts.filter (fun q => q.id == p)).head? = some post ∧
        post ∈ db.posts ∧ post.id = p ∧
        (post.user_id ≠ u →
          (createCommentHandler u p c t db).2.notifications =
            db.notifications ++
              [⟨db.nextNotifId, post.user_id, "comment", u, some p, false,
                t⟩]) ∧
        (post.user_id = u →
          (createCommentHandler u p c t db).2.notifications =
            db.notifications))
    ∧ (¬g = u → hasUserId db g = true →
      db.follows.filter
        (fun x => x.follower_id == u && x.following_id == g) = [] →
      (followHandler u g t db).2.notifications =
        db.notifications ++ [⟨db.nextNotifId, g, "follow", u, none, false,
          t⟩]) := by
  refine ⟨?_, ?_, ?_⟩
  · intro hp hempty
    obtain ⟨post, h1, h2, h3, h4, h5, h6, h7, h8, h9, h10⟩ :=
      likeHandler_insert_spec u p t db hu hp hfk hempty
    exact ⟨post, h1, h2, h3, h9, h10⟩
  · intro hc hp
    obtain ⟨post, h1, h2, h3, h4, h5, h6, h7, h8, h9⟩ :=
      createCommentHandler_spec u p c t db hc hu hp hfk
    exact ⟨post, h1, h2, h3, h8, h9⟩
  · intro hg hyes hempty
    exact (followHandler_insert_spec u g t db hg hu hyes hempty).2.2.2.2.2

/-- Witness for C3 at dbUPost: user 1 likes, comments on post 1 of user 2,
and follows user 2. -/
theorem C3_notification_fanout_witness :
    hasUserId dbUPost 1 = true ∧
    ((hasPostId dbUPost 1 = true →
      dbUPost.likes.filter (fun l => l.user_id == 1 && l.post_id == 1) = [] →
      ∃ post : PostRow,
        (dbUPost.posts.filter (fun q => q.id == 1)).head? = some post ∧
        post ∈ dbUPost.posts ∧ post.id = 1 ∧
        (post.user_id ≠ 1 →
          (likeHandler 1 1 9 dbUPost).2.notifications =
            dbUPost.notifications ++
            [⟨dbUPost.nextNotifId, post.user_id, "like", 1, some 1, false,
              9⟩]) ∧
        (post.user_id = 1 →
          (likeHandler 1 1 9 dbUPost).2.notifications =
            dbUPost.notifications))
    ∧ (¬"nice" = "" → hasPostId dbUPost 1 = true →
      ∃ post : PostRow,
        (dbUPost.posts.filter (fun q => q.id == 1)).head? = some post ∧
        post ∈ dbUPost.posts ∧ post.id = 1 ∧
        (post.user_id ≠ 1 →
          (createCommentHandler 1 1 "nice" 9 dbUPost).2.notifications =
            dbUPost.notifications ++
              [⟨dbUPost.nextNotifId, post.user_id, "comment", 1, some 1,
                false, 9⟩]) ∧
        (post.user_id = 1 →
          (createCommentHandler 1 1 "nice" 9 dbUPost).2.notifications =
            dbUPost.notifications))
    ∧ (¬2 = 1 → hasUserId dbUPost 2 = true →
      dbUPost.follows.filter
        (fun x => x.follower_id == 1 && x.following_id == 2) = [] →
      (followHandler 1 2 9 dbUPost).2.notifications =
        dbUPost.notifications ++ [⟨dbUPost.nextNotifId, 2, "follow", 1,
          none, false, 9⟩])) :=
  ⟨by decide,
    C3_notification_fanout 1 1 2 "nice" 9 dbUPost (by decide) (by decide)⟩

/-- C6: login answers 401 Invalid credentials exactly when no user carries
the submitted email or bcrypt.compare rejects the password against the
stored hash; otherwise it answers 200 with a token for that user and the
user row without password_hash.  The database is never written.  Emails are
unique per the users UNIQUE constraint. -/
theorem C6_login_behavior (email password : String)
    (compare : String → String → Bool) (db : DB)
    (hnd : (db.users.map (fun w => w.email)).Nodup) :
    (loginHandler email password compare db).2 = db
    ∧ (((loginHandler email password compare db).1.status = 401 ∧
        (loginHandler email password compare db).1.error =
          some "Invalid credentials")
      ↔ ((∀ w ∈ db.users, ¬w.email = email) ∨
        (∃ w ∈ db.users, w.email = email ∧
          compare password w.password_hash = false)))
    ∧ (∀ w ∈ db.users, w.email = email →
        compare password w.password_hash = true →
        (loginHandler email password compare db).1 =
          ⟨200, true, none, some (tokenFor w), some (toPublic w)⟩) := by
  have hinj := List.inj_on_of_nodup_map hnd
  cases hfe : db.users.filter (fun x => x.email == email) with
  | nil =>
      have hnone : ∀ w ∈ db.users, ¬w.email = email := by
        intro w hw hcontra
        exact absurd (by simpa using hcontra)
          (List.filter_eq_nil_iff.mp hfe w hw)
      unfold loginHandler
      rw [hfe]
      refine ⟨rfl, ?_, ?_⟩
      · exact ⟨fun _ => Or.inl hnone, fun _ => ⟨rfl, rfl⟩⟩
      · intro w hw hmail _
        exact absurd hmail (hnone w hw)
  | cons a rest =>
      have hamem : a ∈ db.users.filter (fun x => x.email == email) := by
        rw [hfe]
        exact List.mem_cons_self a rest
      rw [List.mem_filter] at hamem
      have hae : a.email = email := by simpa using hamem.2
      have huniq : ∀ w ∈ db.users, w.email = email → w = a := by
        intro w hw hmail
        exact hinj hw hamem.1 (by
          show w.email = a.email
          rw [hmail, hae])
      unfold loginHandler
      rw [hfe]
      dsimp only [List.head?]
      cases hcmp : compare password a.password_hash with
      | true =>
          rw [if_pos rfl]
          refine ⟨rfl, ?_, ?_⟩
          · constructor
            · intro hcontra
              cases hcontra.1
            · intro hcontra
              rcases hcontra with hall | ⟨w, hw, hmail, hfalse⟩
              · exact absurd hae (hall a hamem.1)
              · rw [huniq w hw hmail] at hfalse
                rw [hfalse] at hcmp
                cases hcmp
          · intro w hw hmail _
            rw [huniq w hw hmail]
      | false =>
          rw [if_neg Bool.false_ne_true]
          refine ⟨rfl, ?_, ?_⟩
          · exact ⟨fun _ => Or.inr ⟨a, hamem.1, hae, hcmp⟩,
              fun _ => ⟨rfl, rfl⟩⟩
          · intro w hw hmail htrue
            rw [huniq w hw hmail] at htrue
            rw [htrue] at hcmp
            cases hcmp

/-- Witness for C6: logging in as alice in dbUPost with string-equality as
the compare oracle. -/
theorem C6_login_behavior_witness :
    (loginHandler "alice@x.com" "h1" (fun pw h => pw == h) dbUPost).2 = dbUPost
    ∧ (((loginHandler "alice@x.com" "h1" (fun pw h => pw == h)
          dbUPost).1.status = 401 ∧
        (loginHandler "alice@x.com" "h1" (fun pw h => pw == h)
          dbUPost).1.error = some "Invalid credentials")
      ↔ ((∀ w ∈ dbUPost.users, ¬w.email = "alice@x.com") ∨
        (∃ w ∈ dbUPost.users, w.email = "alice@x.com" ∧
          (fun pw h => pw == h) "h1" w.password_hash = false)))
    ∧ (∀ w ∈ dbUPost.users, w.email = "alice@x.com" →
        (fun pw h => pw == h) "h1" w.password_hash = true →
        (loginHandler "alice@x.com" "h1" (fun pw h => pw == h) dbUPost).1 =
          ⟨200, true, none, some (tokenFor w), some (toPublic w)⟩) :=
  C6_login_behavior "alice@x.com" "h1" (fun pw h => pw == h) dbUPost
    (by decide)

/-- C8: the profile route runs without authenticateToken, so req.user is
never set and every successful profile response reports isFollowing false,
whatever bearer token the request carries and whatever the follows table
holds. -/
theorem C8_profile_isFollowing_false (tok : TokenCheck) (userId : Nat)
    (db : DB) (d : ProfileData)
    (h : (getUserRoute tok userId db).1.data = some d) :
    d.isFollowing = false := by
  unfold getUserRoute getUserHandler at h
  revert h
  dsimp only
  split
  · intro h
    cases h
  · intro h
    injection h with h2
    subst h2
    rfl

/-- Witness for C8: a request for the profile of user 2 bearing the valid
token of user 1, who follows user 2 in dbFollow; isFollowing is still
false. -/
theorem C8_profile_isFollowing_false_witness :
    (getUserRoute (TokenCheck.valid ⟨1, "alice@x.com", false⟩) 2
        dbFollow).1.data =
      some ⟨2, "bob", "bob@x.com", 0, ⟨0, 1, 0⟩, false⟩ ∧
    (⟨2, "bob", "bob@x.com", 0, ⟨0, 1, 0⟩, false⟩ :
      ProfileData).isFollowing = false :=
  ⟨by decide,
    C8_profile_isFollowing_false (TokenCheck.valid ⟨1, "alice@x.com", false⟩)
      2 dbFollow ⟨2, "bob", "bob@x.com", 0, ⟨0, 1, 0⟩, false⟩ (by decide)⟩

/-- C9: a successfully registered user is stored with is_admin true exactly
when the email ends with the admin gmail suffix or equals the fixed admin
address; the admin listing answers 200 exactly for a verified token whose
isAdmin claim is true, and 403 for any other verified token. -/
theorem C9_admin_rule (username email password hashed : String) (t : Nat)
    (db : DB) (tok : TokenCheck) :
    ((registerHandler username email password hashed t db).1.status = 201 →
      ∃ w : UserRow,
        (registerHandler username email password hashed t db).2.users =
          db.users ++ [w] ∧ w.email = email ∧
        (w.is_admin = true ↔
          (email.endsWith "_admin@gmail.com" = true ∨
            email = "admin@social.com")))
    ∧ ((adminUsersRoute tok db).1.status = 200 ↔
        ∃ pl : TokenPayload, tok = TokenCheck.valid pl ∧ pl.isAdmin = true)
    ∧ (∀ pl : TokenPayload, tok = TokenCheck.valid pl → pl.isAdmin = false →
        (adminUsersRoute tok db).1 =
          ⟨403, false, some "Admin access required", none⟩) := by
  refine ⟨?_, ?_, ?_⟩
  · unfold registerHandler
    dsimp only
    split
    · exact fun h => absurd h (show ¬(400 : Nat) = 201 by decide)
    · split
      · exact fun h => absurd h (show ¬(400 : Nat) = 201 by decide)
      · split
        · exact fun h => absurd h (show ¬(500 : Nat) = 201 by decide)
        · split
          · intro _
            refine ⟨_, rfl, rfl, ?_⟩
            simp [registerIsAdmin]
          · exact fun h => absurd h (show ¬(500 : Nat) = 201 by decide)
  · cases tok with
    | missing =>
        constructor
        · exact fun h => absurd h (show ¬(401 : Nat) = 200 by decide)
        · rintro ⟨pl, hpl, _⟩
          cases hpl
    | invalid =>
        constructor
        · exact fun h => absurd h (show ¬(403 : Nat) = 200 by decide)
        · rintro ⟨pl, hpl, _⟩
          cases hpl
    | valid pl =>
        unfold adminUsersRoute authenticateTok requireAdmin
        dsimp only
        cases hadm : pl.isAdmin with
        | true =>
            rw [if_neg (by simp [hadm])]
            exact ⟨fun _ => ⟨pl, rfl, hadm⟩, fun _ => rfl⟩
        | false =>
            rw [if_pos (by simp [hadm])]
            constructor
            · exact fun h => absurd h (show ¬(403 : Nat) = 200 by decide)
            · rintro ⟨pl2, hpl2, hadm2⟩
              injection hpl2 with hpl3
              subst hpl3
              rw [hadm] at hadm2
              cases hadm2
  · intro pl hpl hadm
    subst hpl
    unfold adminUsersRoute authenticateTok requireAdmin
    dsimp only
    rw [if_pos (by simp [hadm])]

/-- Witness for C9: registering eve with an admin-pattern email on the
empty database, and querying the admin listing with her valid token. -/
theorem C9_admin_rule_witness :
    ((registerHandler "eve" "eve_admin@gmail.com" "pw" "h9" 0
        emptyDB).1.status = 201 →
      ∃ w : UserRow,
        (registerHandler "eve" "eve_admin@gmail.com" "pw" "h9" 0
          emptyDB).2.users = emptyDB.users ++ [w] ∧
        w.email = "eve_admin@gmail.com" ∧
        (w.is_admin = true ↔
          (("eve_admin@gmail.com").endsWith "_admin@gmail.com" = true ∨
            "eve_admin@gmail.com" = "admin@social.com")))
    ∧ ((adminUsersRoute
          (TokenCheck.valid ⟨1, "eve_admin@gmail.com", true⟩)
          emptyDB).1.status = 200 ↔
        ∃ pl : TokenPayload,
          TokenCheck.valid ⟨1, "eve_admin@gmail.com", true⟩ =
            TokenCheck.valid pl ∧ pl.isAdmin = true)
    ∧ (∀ pl : TokenPayload,
        TokenCheck.valid ⟨1, "eve_admin@gmail.com", true⟩ =
          TokenCheck.valid pl → pl.isAdmin = false →
        (adminUsersRoute (TokenCheck.valid ⟨1, "eve_admin@gmail.com", true⟩)
            emptyDB).1 =
          ⟨403, false, some "Admin access required", none⟩) :=
  C9_admin_rule "eve" "eve_admin@gmail.com" "pw" "h9" 0 emptyDB
    (TokenCheck.valid ⟨1, "eve_admin@gmail.com", true⟩)

/-- A member of a list with duplicate-free keys splits the list, and every
other element carries a different key. -/
theorem nodup_key_split {α : Type} (key : α → Nat) {l : List α}
    (h : (l.map key).Nodup) {x : α} (hx : x ∈ l) :
    ∃ pre suf, l = pre ++ x :: suf ∧ ∀ y ∈ pre ++ suf, ¬key y = key x := by
  obtain ⟨pre, suf, hsplit⟩ := List.append_of_mem hx
  refine ⟨pre, suf, hsplit, ?_⟩
  rw [hsplit, List.map_append, List.map_cons] at h
  have hnm := (List.nodup_cons.mp (List.nodup_middle.mp h)).1
  intro y hy hcontra
  apply hnm
  rw [← List.map_append]
  exact List.mem_map.mpr ⟨y, hy, hcontra⟩

/-- The UPDATE of the mark-read handler touches exactly the rows carrying
the updated id. -/
theorem notif_map_update {pre suf : List NotificationRow}
    {x : NotificationRow} (k : Nat) (hk : x.id = k)
    (hothers : ∀ y ∈ pre ++ suf, ¬y.id = k) :
    (pre ++ x :: suf).map
      (fun y => if y.id == k then { y with is_read := true } else y) =
      pre ++ ({ x with is_read := true } :: suf) := by
  rw [List.map_append, List.map_cons]
  have hpre : pre.map
      (fun y => if y.id == k then { y with is_read := true } else y) = pre := by
    have : ∀ y ∈ pre,
        (if y.id == k then { y with is_read := true } else y) = y := by
      intro y hy
      rw [if_neg]
      intro hc
      exact hothers y (List.mem_append_left suf hy) (by simpa using hc)
    calc pre.map (fun y => if y.id == k then { y with is_read := true } else y)
        = pre.map id := List.map_congr_left (by simpa using this)
      _ = pre := List.map_id pre
  have hsuf : suf.map
      (fun y => if y.id == k then { y with is_read := true } else y) = suf := by
    have : ∀ y ∈ suf,
        (if y.id == k then { y with is_read := true } else y) = y := by
      intro y hy
      rw [if_neg]
      intro hc
      exact hothers y (List.mem_append_right pre hy) (by simpa using hc)
    calc suf.map (fun y => if y.id == k then { y with is_read := true } else y)
        = suf.map id := List.map_congr_left (by simpa using this)
      _ = suf := List.map_id suf
  rw [hpre, hsuf, if_pos (by simpa using hk)]

/-- C10: marking a notification read answers 404 and changes nothing when
no notifications row carries the given id and the requesting owner;
otherwise it answers 200 and sets is_read on exactly the row with that id,
every other field and row and every other table unchanged.  Notification
ids are unique per the PRIMARY KEY. -/
theorem C10_mark_notification_read (u n : Nat) (db : DB)
    (hnd : (db.notifications.map (fun x => x.id)).Nodup) :
    ((∀ x ∈ db.notifications, ¬(x.id = n ∧ x.user_id = u)) →
      (markReadHandler u n db).1 = ⟨404, false⟩ ∧
      (markReadHandler u n db).2 = db)
    ∧ (∀ x ∈ db.notifications, x.id = n → x.user_id = u →
      (markReadHandler u n db).1 = ⟨200, true⟩ ∧
      ∃ pre suf, db.notifications = pre ++ x :: suf ∧
        (markReadHandler u n db).2 =
          { db with notifications :=
              pre ++ ({ x with is_read := true } :: suf) }) := by
  constructor
  · intro hnone
    have howned : db.notifications.filter
        (fun x => x.id == n && x.user_id == u) = [] := by
      refine List.filter_eq_nil_iff.mpr (fun y hy hc => ?_)
      rw [Bool.and_eq_true, beq_iff_eq, beq_iff_eq] at hc
      exact hnone y hy hc
    unfold markReadHandler
    dsimp only
    rw [howned]
    exact ⟨rfl, rfl⟩
  · intro x hx hid huid
    have hxin : x ∈ db.notifications.filter
        (fun y => y.id == n && y.user_id == u) := by
      rw [List.mem_filter]
      refine ⟨hx, ?_⟩
      rw [Bool.and_eq_true, beq_iff_eq, beq_iff_eq]
      exact ⟨hid, huid⟩
    have hne : db.notifications.filter
        (fun y => y.id == n && y.user_id == u) ≠ [] := by
      intro hc
      rw [hc] at hxin
      cases hxin
    obtain ⟨pre, suf, hsplit, hothers⟩ :=
      nodup_key_split (fun y => y.id) hnd hx
    constructor
    · unfold markReadHandler
      dsimp only
      rw [if_neg (fun hc => hne (List.length_eq_zero.mp (by simpa using hc)))]
    · refine ⟨pre, suf, hsplit, ?_⟩
      unfold markReadHandler
      dsimp only
      rw [if_neg (fun hc => hne (List.length_eq_zero.mp (by simpa using hc)))]
      have hupd := notif_map_update n hid
        (fun y hy hc => hothers y hy (by rw [hc, hid]))
      rw [hsplit, hupd]

/-- Witness for C10: user 1 marks notification 1 read in dbNotif. -/
theorem C10_mark_notification_read_witness :
    ((∀ x ∈ dbNotif.notifications, ¬(x.id = 1 ∧ x.user_id = 1)) →
      (markReadHandler 1 1 dbNotif).1 = ⟨404, false⟩ ∧
      (markReadHandler 1 1 dbNotif).2 = dbNotif)
    ∧ (∀ x ∈ dbNotif.notifications, x.id = 1 → x.user_id = 1 →
      (markReadHandler 1 1 dbNotif).1 = ⟨200, true⟩ ∧
      ∃ pre suf, dbNotif.notifications = pre ++ x :: suf ∧
        (markReadHandler 1 1 dbNotif).2 =
          { dbNotif with notifications :=
              pre ++ ({ x with is_read := true } :: suf) }) :=
  C10_mark_notification_read 1 1 dbNotif (by decide)

/-- With duplicate-free user ids, the filter by an existing id is a
singleton. -/
theorem users_filter_single {l : List UserRow}
    (hnd : (l.map (fun w => w.id)).Nodup) {k : Nat}
    (hk : l.any (fun w => w.id == k) = true) :
    ∃ w, l.filter (fun w => w.id == k) = [w] ∧ w.id = k ∧ w ∈ l := by
  obtain ⟨w, hwmem, hwid⟩ := List.any_eq_true.mp hk
  rw [beq_iff_eq] at hwid
  obtain ⟨pre, suf, hsplit, hothers⟩ :=
    nodup_key_split (fun w => w.id) hnd hwmem
  refine ⟨w, ?_, hwid, hwmem⟩
  rw [hsplit, List.filter_append, List.filter_cons_of_pos (by simpa using hwid)]
  have hpre : pre.filter (fun w => w.id == k) = [] := by
    refine List.filter_eq_nil_iff.mpr (fun y hy hc => ?_)
    refine hothers y (List.mem_append_left suf hy) ?_
    rw [hwid]
    simpa using hc
  have hsuf : suf.filter (fun w => w.id == k) = [] := by
    refine List.filter_eq_nil_iff.mpr (fun y hy hc => ?_)
    refine hothers y (List.mem_append_right pre hy) ?_
    rw [hwid]
    simpa using hc
  rw [hpre, hsuf]
  rfl

/-- Posts of the feed join: with the schema constraints, the join keeps one
row per post passing the WHERE clause, in order. -/
theorem feed_join_posts (db : DB) (u : Nat)
    (hnd : (db.users.map (fun w => w.id)).Nodup) :
    ∀ ps : List PostRow,
      (∀ q ∈ ps, db.users.any (fun w => w.id == q.user_id) = true) →
      ((ps.flatMap (fun p =>
          (db.users.filter (fun w => w.id == p.user_id)).map
            (fun w => FeedRow.mk p w.username w.email))).filter
        (fun row => feedCond db u row.post)).map (fun r => r.post)
        = ps.filter (fun p => feedCond db u p) := by
  intro ps
  induction ps with
  | nil =>
      intro _
      rfl
  | cons p ps ih =>
      intro hall
      obtain ⟨w, hw, hwid, hwmem⟩ :=
        users_filter_single hnd (hall p (List.mem_cons_self p ps))
      rw [List.flatMap_cons, List.filter_append, List.map_append, hw]
      simp only [List.map_cons, List.map_nil]
      rw [ih (fun q hq => hall q (List.mem_cons_of_mem p hq))]
      cases hcond : feedCond db u p with
      | true =>
          have h1 : List.filter (fun row => feedCond db u row.post)
              [FeedRow.mk p w.username w.email] =
              [FeedRow.mk p w.username w.email] := by
            rw [List.filter_cons_of_pos (by exact hcond)]
            rfl
          rw [h1, List.filter_cons_of_pos hcond]
          rfl
      | false =>
          have h1 : List.filter (fun row => feedCond db u row.post)
              [FeedRow.mk p w.username w.email] = [] := by
            rw [List.filter_cons_of_neg (by simp [hcond])]
            rfl
          rw [h1, List.filter_cons_of_neg (by simp [hcond])]
          rfl

/-- C1: the feed of user u returns exactly the posts whose author is u or a
user u follows, each joined with the author username and email, ordered by
created_at descending, and writes nothing.  Schema constraints assumed:
user ids unique, post authors registered. -/
theorem C1_feed_exact_sorted (u : Nat) (db : DB)
    (hnd : (db.users.map (fun w => w.id)).Nodup)
    (hfk : ∀ q ∈ db.posts, hasUserId db q.user_id = true) :
    (feedHandler u db).2 = db
    ∧ (∀ q ∈ db.posts, ((q.user_id = u ∨ ∃ f ∈ db.follows,
        f.follower_id = u ∧ f.following_id = q.user_id) ↔
        feedCond db u q = true))
    ∧ (((feedHandler u db).1.data.map (fun r => r.post)).Perm
        (db.posts.filter (fun p => feedCond db u p)))
    ∧ (feedHandler u db).1.data.Pairwise
        (fun a b => b.post.created_at ≤ a.post.created_at)
    ∧ ∀ r ∈ (feedHandler u db).1.data, ∃ w ∈ db.users,
        w.id = r.post.user_id ∧ r.username = w.username ∧
        r.email = w.email := by
  refine ⟨rfl, ?_, ?_, ?_, ?_⟩
  · intro q _
    simp only [feedCond, Bool.or_eq_true, List.any_eq_true, Bool.and_eq_true,
      beq_iff_eq]
    exact or_comm
  · have hjoin := feed_join_posts db u hnd db.posts (fun q hq => hfk q hq)
    have hperm : (((feedHandler u db).1.data).map (fun r => r.post)).Perm
        (((db.posts.flatMap (fun p =>
            (db.users.filter (fun w => w.id == p.user_id)).map
              (fun w => FeedRow.mk p w.username w.email))).filter
          (fun row => feedCond db u row.post)).map (fun r => r.post)) :=
      List.Perm.map _ (List.perm_insertionSort _ _)
    rw [hjoin] at hperm
    exact hperm
  · haveI h1 : IsTotal FeedRow
        (fun a b => b.post.created_at ≤ a.post.created_at) :=
      ⟨fun a b => Nat.le_total _ _⟩
    haveI h2 : IsTrans FeedRow
        (fun a b => b.post.created_at ≤ a.post.created_at) :=
      ⟨fun a b c hab hbc => Nat.le_trans hbc hab⟩
    exact List.sorted_insertionSort _ _
  · intro r hr
    have hr2 := (List.mem_insertionSort _).mp hr
    obtain ⟨hrj, hcond⟩ := List.mem_filter.mp hr2
    obtain ⟨p, hpmem, hrin⟩ := List.mem_flatMap.mp hrj
    obtain ⟨w, hwf, hmk⟩ := List.mem_map.mp hrin
    obtain ⟨hwmem, hwid⟩ := List.mem_filter.mp hwf
    subst hmk
    exact ⟨w, hwmem, by simpa using hwid, rfl, rfl⟩

/-- Witness for C1: the feed of user 1 in dbFeed. -/
theorem C1_feed_exact_sorted_witness :
    (feedHandler 1 dbFeed).2 = dbFeed
    ∧ (∀ q ∈ dbFeed.posts, ((q.user_id = 1 ∨ ∃ f ∈ dbFeed.follows,
        f.follower_id = 1 ∧ f.following_id = q.user_id) ↔
        feedCond dbFeed 1 q = true))
    ∧ (((feedHandler 1 dbFeed).1.data.map (fun r => r.post)).Perm
        (dbFeed.posts.filter (fun p => feedCond dbFeed 1 p)))
    ∧ (feedHandler 1 dbFeed).1.data.Pairwise
        (fun a b => b.post.created_at ≤ a.post.created_at)
    ∧ ∀ r ∈ (feedHandler 1 dbFeed).1.data, ∃ w ∈ dbFeed.users,
        w.id = r.post.user_id ∧ r.username = w.username ∧
        r.email = w.email :=
  C1_feed_exact_sorted 1 dbFeed (by decide) (by decide)
